import Mathlib

/-!
Verification of the engine core (Timer.h, Engine.h/Engine.cpp) against its
natural-language specification.

The C++ classes are shallowly embedded as Lean structures and pure functions.
Wall-clock instants (`std::chrono::high_resolution_clock::time_point`) and
durations (`std::chrono::nanoseconds`) are modelled as integer nanosecond
counts; every member function that samples `Clock::now()` takes the sampled
instant as an explicit `now` argument.  The C++ accessors `getTime` and
`getDeltaTime` divide the nanosecond count by `COUNTSPERSECOND = 1e9` and cast
to `double` before returning; the theorems below are stated about the
underlying nanosecond counts, of which the returned `double` is a fixed
monotone image.
-/

namespace EngineModel

/-- Model of `C_Timer` (src/engine/Timer.h).  Fields mirror the C++ data
members: `paused_`, `base_time_`, `pause_time_`, `prev_time_`,
`current_time_`, `pause_total_`, `delta_time_`.  (In C++ the constructor
leaves `delta_time_` and the four time points default-initialized; no claim
depends on pre-`start()` values, and concrete evaluations below always begin
with an explicit state.) -/

structure TimerState where
  paused : Bool
  base : Int
  pauseTime : Int
  prev : Int
  current : Int
  pauseTotal : Int
  delta : Int
deriving DecidableEq, Repr

/-- `C_Timer::start()`: sample now, set base/prev/current to it, zero the
paused total, clear the paused flag.  (`pause_time_` and `delta_time_` are
not touched by the C++ code.) -/

def TimerState.start (now : Int) (s : TimerState) : TimerState :=
  { s with current := now, base := now, prev := now, pauseTotal := 0, paused := false }

/-- `C_Timer::pause()`: no-op if already paused, else record the pause marker
and set the flag. -/

def TimerState.pause (now : Int) (s : TimerState) : TimerState :=
  if s.paused then s else { s with pauseTime := now, paused := true }

/-- `C_Timer::unpause()`: no-op if not paused, else accumulate
`now - pause_time_` into the paused total, reset `prev_time_`, clear the
flag. -/

def TimerState.unpause (now : Int) (s : TimerState) : TimerState :=
  if s.paused then
    { s with current := now, pauseTotal := s.pauseTotal + (now - s.pauseTime),
             prev := now, paused := false }
  else s

/-- `C_Timer::tick()`: no-op while paused; else sample now, set
`delta_time_ = now - prev_time_`, store now as `prev_time_`. -/

def TimerState.tick (now : Int) (s : TimerState) : TimerState :=
  if s.paused then s
  else { s with current := now, delta := now - s.prev, prev := now }

/-- `C_Timer::getTime()`: while paused returns `pause_time_ - base_time_`
(the paused branch does not resample the clock and does not mutate state);
while running resamples now into `current_time_` and returns
`now - base_time_ - pause_total_`.  The returned value is the nanosecond
count (the C++ divides it by 1e9 into a `double`). -/

def TimerState.getTime (now : Int) (s : TimerState) : Int × TimerState :=
  if s.paused then (s.pauseTime - s.base, s)
  else (now - s.base - s.pauseTotal, { s with current := now })

/-- `C_Timer::getDeltaTime()`: the nanosecond count of `delta_time_`. -/

def TimerState.getDeltaTime (s : TimerState) : Int :=
  s.delta

/-- A timer call, carrying the instant `Clock::now()` would return during
that call. -/

inductive TOp where
  | tstart (t : Int)
  | tpause (t : Int)
  | tunpause (t : Int)
  | ttick (t : Int)
deriving DecidableEq, Repr

/-- Run one timer call. -/

def TimerState.runOp (s : TimerState) : TOp → TimerState
  | .tstart t => s.start t
  | .tpause t => s.pause t
  | .tunpause t => s.unpause t
  | .ttick t => s.tick t

/-- Run a sequence of timer calls. -/

def runTrace (s : TimerState) (tr : List TOp) : TimerState :=
  tr.foldl TimerState.runOp s

/-- Specification-side ghost summary of a call trace: whether a pause is in
progress, the instant the in-progress pause began (`mark`), the summed
duration of completed pause intervals (`total`), and the instant of the last
`start` (`startT`).  Computed from the trace alone. -/

structure PSpec where
  paused : Bool
  mark : Int
  total : Int
  startT : Int
deriving DecidableEq, Repr

/-- One step of the ghost summary. -/

def pstep (g : PSpec) : TOp → PSpec
  | .tstart t => { paused := false, mark := g.mark, total := 0, startT := t }
  | .tpause t => if g.paused then g else { g with paused := true, mark := t }
  | .tunpause t =>
      if g.paused then { g with paused := false, total := g.total + (t - g.mark) }
      else g
  | .ttick _ => g

/-- Ghost summary of a whole trace. -/

def pspecRun (g : PSpec) (tr : List TOp) : PSpec :=
  tr.foldl pstep g

/-- Modelled from the spec: the value the claim says `getTime()` returns —
wall-clock time elapsed since `start()` minus the total duration of all
completed and in-progress pause intervals. -/

def claimedTime (now : Int) (g : PSpec) : Int :=
  (now - g.startT) - (g.total + (if g.paused then now - g.mark else 0))

/-- The concrete correspondence between a timer state and the ghost summary
of the trace that produced it. -/

def TimerRel (s : TimerState) (g : PSpec) : Prop :=
  s.paused = g.paused ∧ s.base = g.startT ∧ s.pauseTotal = g.total ∧ s.pauseTime = g.mark

/-- An all-zero timer state, used as the concrete starting point of traces. -/

def zTimer : TimerState :=
  { paused := false, base := 0, pauseTime := 0, prev := 0, current := 0,
    pauseTotal := 0, delta := 0 }

/-- Discriminator: is this call an `unpause`? -/

def TOp.isUnpause : TOp → Bool
  | .tunpause _ => true
  | _ => false

/-- Discriminator: is this call a `start`? -/

def TOp.isStart : TOp → Bool
  | .tstart _ => true
  | _ => false

/-!
## The Engine (src/unnamed/part_000: Engine.h + Engine.cpp)

`shared_ptr` identity is modelled by natural-number identifiers: two
`MsgListenerPtr`s (resp. `EngineStatePtr`s, `EngineSystemPtr`s) compare equal
in C++ exactly when they hold the same pointer, i.e. the same id here.
A `Message` carries its immutable type and timestamp.  The virtual callbacks
of external collaborators are recorded as events in an instrumentation log:
`enter`/`exit` of states, `onUpdate`/`onRender` of the active state, each
`triggerMessage` call and each `MessageListener::onMessage` invocation.

A listener's `onMessage` body is external code; it is modelled by a pure
`Behavior` oracle giving, per (listener, message), the returned consumption
flag together with the list of messages that the listener passes to
`Engine::queueMessage` during the callback (the reentrancy the double-buffer
scheme exists for).  Listeners mutating the listener registry mid-dispatch
are outside the claims under check and are not modelled.
-/

/-- `Message`: immutable type and timestamp (`MessageType` = unsigned int,
stamp a double; the stamp is never interpreted, an `Int` suffices). -/

structure Msg where
  type : Nat
  stamp : Int
deriving DecidableEq, Repr

/-- `Engine::MsgStatus`. -/

inductive MsgStatus where
  | NOTCONSUMED
  | CONSUMED
  | NOLISTENER
  | SUCCESS
deriving DecidableEq, Repr

/-- Instrumentation events for the external virtual calls the engine makes. -/

inductive Ev where
  | enter (s : Nat)
  | exitState (s : Nat)
  | update (s : Nat) (d : Int)
  | render (s : Nat) (d : Int)
  | trigger (m : Msg)
  | onMessage (l : Nat) (m : Msg)
deriving DecidableEq, Repr

/-- The listener oracle: consumption flag returned by `onMessage`, plus the
messages the listener hands to `Engine::queueMessage` while it runs. -/

def Behavior : Type := Nat → Msg → Bool × List Msg

/-- Model of the `Engine` singleton's data members, plus the function-local
`static EngineStatePtr current_state` of `Engine::tick` (`tickStatic`,
`none` until the first `tick` call initializes it) and the event log. -/

structure Eng where
  timer : TimerState
  currentTimestamp : Int
  deltaT : Int
  paused : Bool
  stateStack : List Nat
  queuedState : Option Nat
  listenerMap : List (Nat × List Nat)
  q0 : List Msg
  q1 : List Msg
  currentQueue : Bool
  wildcard : List Nat
  tickStatic : Option Nat
  log : List Ev
deriving DecidableEq, Repr

/-- `std::map::find` on the listener map. -/

def lookupLL : List (Nat × List Nat) → Nat → Option (List Nat)
  | [], _ => none
  | (k, v) :: rest, t => if k = t then some v else lookupLL rest t

/-- Replace the list stored under an existing key. -/

def setLL : List (Nat × List Nat) → Nat → List Nat → List (Nat × List Nat)
  | [], _, _ => []
  | (k, v) :: rest, t, nv => if k = t then (k, nv) :: rest else (k, v) :: setLL rest t nv

/-- `message_queue_[b]`. -/

def getQueue (e : Eng) (b : Bool) : List Msg :=
  if b then e.q1 else e.q0

/-- Store a buffer into `message_queue_[b]`. -/

def setQueue (e : Eng) (b : Bool) (q : List Msg) : Eng :=
  if b then { e with q1 := q } else { e with q0 := q }

/-- `message_queue_[current_msg_queue_].push_back` of several messages. -/

def appendCur (e : Eng) (ms : List Msg) : Eng :=
  setQueue e e.currentQueue (getQueue e e.currentQueue ++ ms)

/-- Append instrumentation events. -/

def appendLog (e : Eng) (evs : List Ev) : Eng :=
  { e with log := e.log ++ evs }

/-- `Engine::getCurrentState()`: front of the state list, or null. -/

def Eng.getCurrentState (e : Eng) : Option Nat :=
  e.stateStack.head?

/-- `Engine::pushState`: `exit()` the current front if any, `enter()` the new
state, push it to the front. -/

def Eng.pushState (e : Eng) (s : Nat) : Eng :=
  let e1 := match e.stateStack with
    | [] => e
    | f :: _ => appendLog e [Ev.exitState f]
  let e2 := appendLog e1 [Ev.enter s]
  { e2 with stateStack := s :: e2.stateStack }

/-- `Engine::queueStateChange`: overwrite the pending transition slot. -/

def Eng.queueStateChange (e : Eng) (s : Nat) : Eng :=
  { e with queuedState := some s }

/-- `Engine::addListener`: find the type's list, creating it when absent (the
`std::map::insert` of a fresh key cannot fail); scan it for a duplicate,
returning `false` with no mutation when `l` is already there; otherwise
`push_back` and return `true`. -/

def Eng.addListener (e : Eng) (l : Nat) (t : Nat) : Bool × Eng :=
  match lookupLL e.listenerMap t with
  | none => (true, { e with listenerMap := e.listenerMap ++ [(t, [l])] })
  | some ls =>
      if l ∈ ls then (false, e)
      else (true, { e with listenerMap := setLL e.listenerMap t (ls ++ [l]) })

/-- `Engine::queueMessage`: reject with `NOLISTENER` when the type has no map
entry or an empty listener list; otherwise push the message onto the
currently-accepting buffer and return `SUCCESS`. -/

def Eng.queueMessage (e : Eng) (m : Msg) : MsgStatus × Eng :=
  match lookupLL e.listenerMap m.type with
  | none => (.NOLISTENER, e)
  | some [] => (.NOLISTENER, e)
  | some (_ :: _) => (.SUCCESS, appendCur e [m])

/-- One listener loop of `Engine::triggerMessage`: invoke `onMessage` on each
listener in order (logging the call, queueing whatever the listener queues),
upgrading the running status to `CONSUMED` whenever a listener returns true. -/

def runListeners (b : Behavior) (m : Msg) : List Nat → MsgStatus → Eng → MsgStatus × Eng
  | [], st, e => (st, e)
  | l :: rest, st, e =>
      let e1 := appendLog e [Ev.onMessage l m]
      let r := b l m
      let e2 := r.2.foldl (fun acc q => (Eng.queueMessage acc q).2) e1
      runListeners b m rest (if r.1 then .CONSUMED else st) e2

/-- `Engine::triggerMessage`: status starts `NOTCONSUMED`; a missing map
entry for the type sets it to `NOLISTENER`, otherwise the type's listeners
run; then the wildcard listeners run; any consumption overwrites the status
with `CONSUMED`. -/

def Eng.triggerMessage (b : Behavior) (e : Eng) (m : Msg) : MsgStatus × Eng :=
  let e0 := appendLog e [Ev.trigger m]
  match lookupLL e0.listenerMap m.type with
  | none => runListeners b m e0.wildcard .NOLISTENER e0
  | some ls =>
      let r := runListeners b m ls .NOTCONSUMED e0
      runListeners b m r.2.wildcard r.1 r.2

/-- The drain loop of `Engine::dispatchMessages`: pop the front of the buffer
being processed, `triggerMessage` it, and re-queue it into the (new) current
buffer when the result is `NOTCONSUMED`. -/

def drain (b : Behavior) : List Msg → Eng → Eng
  | [], e => e
  | m :: rest, e =>
      let r := Eng.triggerMessage b e m
      let e2 := if r.1 = .NOTCONSUMED then appendCur r.2 [m] else r.2
      drain b rest e2

/-- `Engine::dispatchMessages`: flip `current_msg_queue_`, clear the newly
current buffer, then drain the buffer that was current before the flip.  The
C++ loop pops the processed buffer in place; since neither `triggerMessage`
nor any `queueMessage` a listener performs ever reads or writes the buffer
being processed (new messages land in the flipped buffer), extracting it up
front and leaving the slot empty is the same function. -/

def Eng.dispatchMessages (b : Behavior) (e : Eng) : Eng :=
  let toProcess := e.currentQueue
  let e1 := { e with currentQueue := !e.currentQueue }
  let e2 := setQueue e1 e1.currentQueue []
  let old := getQueue e2 toProcess
  let e3 := setQueue e2 toProcess []
  drain b old e3

/-- `Engine::pause`: set the engine flag and pause the timer. -/

def Eng.pause (now : Int) (e : Eng) : Eng :=
  { e with paused := true, timer := e.timer.pause now }

/-- `Engine::unPause`: clear the engine flag and unpause the timer. -/

def Eng.unPause (now : Int) (e : Eng) : Eng :=
  { e with paused := false, timer := e.timer.unpause now }

/-- `Engine::tick`: advance the timer and cache timestamp/delta, dispatch
messages, apply a queued state transition, then update and render through the
function-local `static EngineStatePtr current_state = state_.front()`, which
is initialized exactly once — on the first `tick` call ever — and never
refreshed afterwards.  `std::list::front()` on an empty list is undefined
behavior, modelled as `none`.  A captured front is a state previously pushed
through `pushState`, hence a non-null pointer, so the `if (current_state)`
guards pass once the static is initialized. -/

def Eng.tick (b : Behavior) (now : Int) (e : Eng) : Option Eng :=
  let t1 := e.timer.tick now
  let g := t1.getTime now
  let e1 := { e with timer := g.2, currentTimestamp := g.1, deltaT := g.2.getDeltaTime }
  let e2 := Eng.dispatchMessages b e1
  let e3 := match e2.queuedState with
    | some s => { Eng.pushState e2 s with queuedState := none }
    | none => e2
  match e3.tickStatic with
  | none =>
      match e3.stateStack with
      | [] => none
      | f :: _ =>
          let e4 := { e3 with tickStatic := some f }
          some (appendLog e4 [Ev.update f e4.deltaT, Ev.render f e4.deltaT])
  | some c => some (appendLog e3 [Ev.update c e3.deltaT, Ev.render c e3.deltaT])

/-!
## The EngineState class (update/render subsystem lists)

Subsystems are identified by ids (`shared_ptr` identity).  A subsystem's
virtual `onUpdate(double)` / `onRender()` calls are recorded as events.
-/

/-- Events produced by an `EngineState` iterating its subsystem lists. -/

inductive SysEv where
  | sysUpdate (id : Nat) (d : Int)
  | sysRender (id : Nat)
deriving DecidableEq, Repr

/-- `EngineState`'s two subsystem lists. -/

structure EState where
  updateList : List Nat
  renderList : List Nat
deriving DecidableEq, Repr

/-- `EngineState::onUpdate(deltaT)`: `sys->onUpdate(deltaT)` on every entry
of `update_list_`, in order. -/

def EState.onUpdate (s : EState) (d : Int) : List SysEv :=
  s.updateList.map (fun i => SysEv.sysUpdate i d)

/-- `EngineState::onRender(deltaT)` as written in the source: the loop over
`render_list_` calls `sys->onUpdate(deltaT)` — not `sys->onRender()`. -/

def EState.onRender (s : EState) (d : Int) : List SysEv :=
  s.renderList.map (fun i => SysEv.sysUpdate i d)

/-- Modelled from the spec: what §4.3 and claim C5 say `onRender` does —
invoke the render callback `onRender()` on every entry of the render list. -/

def EState.onRenderClaimed (s : EState) : List SysEv :=
  s.renderList.map (fun i => SysEv.sysRender i)

/-- `EngineState::deleteSystem` as written in the source, with C++ undefined
or indeterminate outcomes mapped to `none`:

* first statement (runs when `render_list_` is non-empty):
  `render_list_.erase(std::remove(render_list_.begin(), render_list_.end(), ptr))`
  — when `ptr` is absent `std::remove` returns `end()` and `erase(end())` is
  undefined behavior; when `ptr` occurs once the single-iterator erase-remove
  removes exactly that occurrence; when it occurs more than once the tail
  left behind by `std::remove` holds moved-from (indeterminate) elements and
  only one position is erased, so the resulting list is indeterminate;
* second statement (runs when `update_list_` is non-empty):
  `update_list_.erase(std::remove(render_list_.begin(), render_list_.end(), ptr))`
  — it hands `update_list_.erase` an iterator into `render_list_`, which is
  undefined behavior whenever it executes (and `update_list_` is never
  searched at all). -/

def EState.deleteSystem (s : EState) (p : Nat) : Option EState :=
  let step1 : Option (List Nat) :=
    if s.renderList.isEmpty then some s.renderList
    else if p ∈ s.renderList then
      if s.renderList.count p = 1 then some (s.renderList.filter (fun x => x ≠ p))
      else none
    else none
  match step1 with
  | none => none
  | some r1 =>
      if s.updateList.isEmpty then some { s with renderList := r1 }
      else none

/-!
## Concrete fixtures
-/

/-- Listener oracle that consumes nothing and queues nothing. -/

def bSilent : Behavior := fun _ _ => (false, [])

/-- Listener oracle that consumes everything and queues nothing. -/

def bConsume : Behavior := fun _ _ => (true, [])

/-- A freshly zeroed engine: empty registries and buffers, no states, the
`tick` static not yet initialized. -/

def baseEng : Eng :=
  { timer := zTimer, currentTimestamp := 0, deltaT := 0, paused := false,
    stateStack := [], queuedState := none, listenerMap := [], q0 := [], q1 := [],
    currentQueue := false, wildcard := [], tickStatic := none, log := [] }

/-!
## Specification-side descriptions of the message bus
-/

/-- The type-specific listener list for a message (empty when no entry). -/

def typeListeners (map : List (Nat × List Nat)) (m : Msg) : List Nat :=
  (lookupLL map m.type).getD []

/-- Queueing eligibility: the type has a map entry with a non-empty list. -/

def eligible (map : List (Nat × List Nat)) (m : Msg) : Bool :=
  match lookupLL map m.type with
  | some (_ :: _) => true
  | _ => false

/-- Does some listener in `ls` consume `m`? -/

def consumesAny (b : Behavior) (ls : List Nat) (m : Msg) : Bool :=
  ls.any (fun l => (b l m).1)

/-- The status `triggerMessage` reports, computed from the registries alone. -/

def trigStatus (b : Behavior) (map : List (Nat × List Nat)) (wc : List Nat)
    (m : Msg) : MsgStatus :=
  match lookupLL map m.type with
  | none => if consumesAny b wc m then .CONSUMED else .NOLISTENER
  | some ls => if consumesAny b (ls ++ wc) m then .CONSUMED else .NOTCONSUMED

/-- The messages that land in the accepting buffer while `m` is triggered:
each invoked listener's queued messages, filtered by queueing eligibility. -/

def enqOf (b : Behavior) (map : List (Nat × List Nat)) (wc : List Nat)
    (m : Msg) : List Msg :=
  (typeListeners map m ++ wc).flatMap (fun l => ((b l m).2).filter (fun q => eligible map q))

/-- The event footprint of one `triggerMessage` call: the trigger itself,
then `onMessage` on the type-specific listeners in order, then on the
wildcard listeners in order. -/

def triggerLog (map : List (Nat × List Nat)) (wc : List Nat) (m : Msg) : List Ev :=
  Ev.trigger m ::
    ((typeListeners map m).map (fun l => Ev.onMessage l m) ++
     wc.map (fun l => Ev.onMessage l m))

/-- Contents of the newly current buffer after draining `ms`: per message,
first whatever its listeners queued, then the message itself when its trigger
reported `NOTCONSUMED`. -/

def drainSpec (b : Behavior) (map : List (Nat × List Nat)) (wc : List Nat) :
    List Msg → List Msg
  | [] => []
  | m :: rest =>
      enqOf b map wc m ++
      (if trigStatus b map wc m = .NOTCONSUMED then [m] else []) ++
      drainSpec b map wc rest

/-- Combined effect: append events `L` to the log and messages `ms` to the
currently accepting buffer. -/

def eff (e : Eng) (L : List Ev) (ms : List Msg) : Eng :=
  appendCur (appendLog e L) ms

/-- Closed form of `dispatchMessages` as a single record expression. -/

def dispatchResult (b : Behavior) (e : Eng) : Eng :=
  { e with
    currentQueue := !e.currentQueue,
    q0 := if e.currentQueue then drainSpec b e.listenerMap e.wildcard e.q1 else [],
    q1 := if e.currentQueue then [] else drainSpec b e.listenerMap e.wildcard e.q0,
    log := e.log ++
      (if e.currentQueue then e.q1 else e.q0).flatMap
        (fun m => triggerLog e.listenerMap e.wildcard m) }

theorem timerRel_runOp {s : TimerState} {g : PSpec} (h : TimerRel s g) (op : TOp) :
    TimerRel (s.runOp op) (pstep g op) := by
  obtain ⟨h1, h2, h3, h4⟩ := h
  cases op with
  | tstart t =>
      simp [TimerState.runOp, TimerState.start, pstep, TimerRel, h4]
  | tpause t =>
      simp only [TimerState.runOp, TimerState.pause, pstep, h1]
      by_cases hp : g.paused <;>
        simp [hp, TimerRel, h1, h2, h3, h4]
  | tunpause t =>
      simp only [TimerState.runOp, TimerState.unpause, pstep, h1]
      by_cases hp : g.paused <;>
        simp [hp, TimerRel, h1, h2, h3, h4]
  | ttick t =>
      simp only [TimerState.runOp, TimerState.tick, pstep, h1]
      by_cases hp : g.paused <;>
        simp [hp, TimerRel, h1, h2, h3, h4]

theorem timerRel_runTrace {s : TimerState} {g : PSpec} (h : TimerRel s g) :
    ∀ tr : List TOp, TimerRel (runTrace s tr) (pspecRun g tr) := by
  intro tr
  induction tr generalizing s g with
  | nil => exact h
  | cons op rest ih =>
      simpa [runTrace, pspecRun] using ih (timerRel_runOp h op)

/-- Claim C3 (counterexample).  Trace: `start` at 0, `pause` at 10, `unpause`
at 20, `pause` again at 30, then read `getTime` at 40.  The code returns the
count 30 (`pause_time_ - base_time_`, which still contains the first paused
interval 10..20), while the claim — wall time since start minus all completed
and in-progress pause intervals — demands 20. -/

theorem C3_counterexample :
    ((runTrace zTimer
        [TOp.tstart 0, TOp.tpause 10, TOp.tunpause 20, TOp.tpause 30]).getTime 40).1 = 30 ∧
    claimedTime 40
      (pspecRun { paused := false, mark := 0, total := 0, startT := 0 }
        [TOp.tpause 10, TOp.tunpause 20, TOp.tpause 30]) = 20 ∧
    (30 : Int) ≠ 20 := by
  decide

/-- Claim C3 (amended): after `start(t0)` followed by any sequence of timer
calls, `getTime()` — read with the clock at `now` — equals wall time since
`start()` minus the *completed* pause intervals while the timer is running,
but while the timer is paused it equals `mark - t0`, the wall-clock instant
of the in-progress pause relative to the base: the in-progress pause is
excluded, yet every *earlier completed* pause interval is included again (the
paused branch of `getTime` does not subtract `pause_total_`). -/

theorem C3_getTime_amended (s0 : TimerState) (t0 : Int) (tr : List TOp) (now : Int) :
    ((runTrace s0 (TOp.tstart t0 :: tr)).getTime now).1 =
      (if (pspecRun { paused := false, mark := s0.pauseTime, total := 0, startT := t0 } tr).paused
       then (pspecRun { paused := false, mark := s0.pauseTime, total := 0, startT := t0 } tr).mark -
            (pspecRun { paused := false, mark := s0.pauseTime, total := 0, startT := t0 } tr).startT
       else (now - (pspecRun { paused := false, mark := s0.pauseTime, total := 0, startT := t0 } tr).startT) -
            (pspecRun { paused := false, mark := s0.pauseTime, total := 0, startT := t0 } tr).total) := by
  have hbase : TimerRel (s0.runOp (TOp.tstart t0))
      { paused := false, mark := s0.pauseTime, total := 0, startT := t0 } := by
    simp [TimerRel, TimerState.runOp, TimerState.start]
  have h := timerRel_runTrace hbase tr
  obtain ⟨h1, h2, h3, h4⟩ := h
  have hrw : runTrace s0 (TOp.tstart t0 :: tr) = runTrace (s0.runOp (TOp.tstart t0)) tr := by
    simp [runTrace]
  rw [hrw]
  by_cases hp : (pspecRun { paused := false, mark := s0.pauseTime, total := 0, startT := t0 } tr).paused <;>
    simp [TimerState.getTime, h1, h2, h3, h4, hp]

/-- Claim C6 (counterexample).  Trace: `start` at 0, `tick` at 5 (delta
becomes 5), `pause` at 7.  The timer is paused, yet `getDeltaTime()` returns
the count 5, not the zero duration the claim demands. -/

theorem C6_counterexample :
    (runTrace zTimer [TOp.tstart 0, TOp.ttick 5, TOp.tpause 7]).paused = true ∧
    (runTrace zTimer [TOp.tstart 0, TOp.ttick 5, TOp.tpause 7]).getDeltaTime = 5 ∧
    (5 : Int) ≠ 0 := by
  decide

/-- Claim C6 (amended): `delta_time_` is modified only by `tick()` — `start`,
`pause`, `unpause` and `getTime` all leave it unchanged — and `tick()` is a
complete no-op while the timer is paused; consequently, once `pause()` has
been called and as long as no `unpause()` (or `start()`) follows, the whole
timer state is frozen and `getDeltaTime()` keeps returning the delta computed
by the last effective tick, which need not be zero. -/

theorem C6_delta_amended (s : TimerState) (t : Int) :
    (s.start t).delta = s.delta ∧
    (s.pause t).delta = s.delta ∧
    (s.unpause t).delta = s.delta ∧
    ((s.getTime t).2).delta = s.delta ∧
    (s.paused = true → s.tick t = s) ∧
    (∀ tr : List TOp, s.paused = true →
      (∀ op ∈ tr, op.isUnpause = false ∧ op.isStart = false) →
      (runTrace s tr).getDeltaTime = s.getDeltaTime) := by
  refine ⟨rfl, ?_, ?_, ?_, ?_, ?_⟩
  · by_cases h : s.paused <;> simp [TimerState.pause, h]
  · by_cases h : s.paused <;> simp [TimerState.unpause, h]
  · by_cases h : s.paused <;> simp [TimerState.getTime, h]
  · intro h; simp [TimerState.tick, h]
  · intro tr hp hops
    have hfrozen : runTrace s tr = s := by
      induction tr with
      | nil => rfl
      | cons op rest ih =>
          have hop := hops op (List.mem_cons_self op rest)
          have hstep : s.runOp op = s := by
            cases op with
            | tstart u => simp [TOp.isStart] at hop
            | tunpause u => simp [TOp.isUnpause] at hop
            | tpause u => simp [TimerState.runOp, TimerState.pause, hp]
            | ttick u => simp [TimerState.runOp, TimerState.tick, hp]
          have hrest : ∀ op' ∈ rest, op'.isUnpause = false ∧ op'.isStart = false :=
            fun op' hmem => hops op' (List.mem_cons_of_mem op hmem)
          calc runTrace s (op :: rest) = runTrace (s.runOp op) rest := by simp [runTrace]
            _ = runTrace s rest := by rw [hstep]
            _ = s := ih hrest
    rw [hfrozen]

/-- Witness for `C6_delta_amended`: a concretely paused timer with delta 5 is
untouched by a further tick-then-pause sequence. -/

theorem C6_witness :
    (runTrace { zTimer with paused := true, delta := 5 }
        [TOp.ttick 9, TOp.tpause 11]).getDeltaTime = 5 := by
  have h := (C6_delta_amended { zTimer with paused := true, delta := 5 } 0).2.2.2.2.2
      [TOp.ttick 9, TOp.tpause 11] rfl (by decide)
  simpa using h

/-- Claim C8 (code bug): `deleteSystem` neither removes the subsystem from
the update list nor tolerates an absent subsystem.  With `update_list_ = [7]`
and `render_list_ = []`, removing subsystem 7 runs
`update_list_.erase(std::remove(render_list_.begin(), ...))` — undefined
behavior through a foreign iterator, and `update_list_` is never searched;
with `update_list_ = []`, `render_list_ = [5]`, removing the absent
subsystem 7 is `erase(end())`, undefined behavior instead of the claimed
no-op. -/

theorem C8_deleteSystem_bug :
    EState.deleteSystem { updateList := [7], renderList := [] } 7 = none ∧
    EState.deleteSystem { updateList := [], renderList := [5] } 7 = none := by
  decide

/-- Claim C5 (code bug): on a state whose render list holds subsystem 7,
`onRender(1)` invokes `onUpdate(1)` on that subsystem — the source loop calls
`sys->onUpdate(deltaT)` — and not the subsystem contract's render callback
`onRender()` that the claim (and the abstract `EngineSystem::onRender`)
prescribe. -/

theorem C5_onRender_bug :
    EState.onRender { updateList := [], renderList := [7] } 1 = [SysEv.sysUpdate 7 1] ∧
    EState.onRender { updateList := [], renderList := [7] } 1 ≠
      EState.onRenderClaimed { updateList := [], renderList := [7] } := by
  decide

/-- Claim C1 (code bug).  First conjunct: the very first `tick()` with an
empty state stack evaluates `state_.front()` on an empty `std::list` —
undefined behavior, not the claimed silent skip.  Remaining conjuncts: on an
engine whose first `tick` captured state 1 into the function-local static and
whose front is now state 2, `getCurrentState()` returns 2 but the tick's
update and render calls still go to state 1 — not to the state currently at
the front, as the claim requires. -/

theorem C1_tick_bug :
    Eng.tick bSilent 0 baseEng = none ∧
    Eng.getCurrentState { baseEng with stateStack := [2, 1], tickStatic := some 1 } = some 2 ∧
    (Eng.tick bSilent 5 { baseEng with stateStack := [2, 1], tickStatic := some 1 }).map Eng.log =
      some [Ev.update 1 5, Ev.render 1 5] := by
  decide

theorem consumesAny_append (b : Behavior) (ls ls' : List Nat) (m : Msg) :
    consumesAny b (ls ++ ls') m = (consumesAny b ls m || consumesAny b ls' m) := by
  simp [consumesAny]

/-!
## Algebra of the queue/log helpers
-/

theorem setQueue_proj (e : Eng) (b : Bool) (q : List Msg) :
    (setQueue e b q).timer = e.timer ∧
    (setQueue e b q).currentTimestamp = e.currentTimestamp ∧
    (setQueue e b q).deltaT = e.deltaT ∧
    (setQueue e b q).paused = e.paused ∧
    (setQueue e b q).stateStack = e.stateStack ∧
    (setQueue e b q).queuedState = e.queuedState ∧
    (setQueue e b q).listenerMap = e.listenerMap ∧
    (setQueue e b q).currentQueue = e.currentQueue ∧
    (setQueue e b q).wildcard = e.wildcard ∧
    (setQueue e b q).tickStatic = e.tickStatic ∧
    (setQueue e b q).log = e.log := by
  cases b <;> simp [setQueue]

@[simp] theorem setQueue_listenerMap (e : Eng) (b : Bool) (q : List Msg) :
    (setQueue e b q).listenerMap = e.listenerMap := (setQueue_proj e b q).2.2.2.2.2.2.1

@[simp] theorem setQueue_currentQueue (e : Eng) (b : Bool) (q : List Msg) :
    (setQueue e b q).currentQueue = e.currentQueue := (setQueue_proj e b q).2.2.2.2.2.2.2.1

@[simp] theorem setQueue_wildcard (e : Eng) (b : Bool) (q : List Msg) :
    (setQueue e b q).wildcard = e.wildcard := (setQueue_proj e b q).2.2.2.2.2.2.2.2.1

@[simp] theorem setQueue_log (e : Eng) (b : Bool) (q : List Msg) :
    (setQueue e b q).log = e.log := (setQueue_proj e b q).2.2.2.2.2.2.2.2.2.2

@[simp] theorem setQueue_timer (e : Eng) (b : Bool) (q : List Msg) :
    (setQueue e b q).timer = e.timer := (setQueue_proj e b q).1

@[simp] theorem setQueue_paused (e : Eng) (b : Bool) (q : List Msg) :
    (setQueue e b q).paused = e.paused := (setQueue_proj e b q).2.2.2.1

@[simp] theorem setQueue_stateStack (e : Eng) (b : Bool) (q : List Msg) :
    (setQueue e b q).stateStack = e.stateStack := (setQueue_proj e b q).2.2.2.2.1

@[simp] theorem setQueue_queuedState (e : Eng) (b : Bool) (q : List Msg) :
    (setQueue e b q).queuedState = e.queuedState := (setQueue_proj e b q).2.2.2.2.2.1

@[simp] theorem setQueue_tickStatic (e : Eng) (b : Bool) (q : List Msg) :
    (setQueue e b q).tickStatic = e.tickStatic := (setQueue_proj e b q).2.2.2.2.2.2.2.2.2.1

@[simp] theorem setQueue_currentTimestamp (e : Eng) (b : Bool) (q : List Msg) :
    (setQueue e b q).currentTimestamp = e.currentTimestamp := (setQueue_proj e b q).2.1

@[simp] theorem setQueue_deltaT (e : Eng) (b : Bool) (q : List Msg) :
    (setQueue e b q).deltaT = e.deltaT := (setQueue_proj e b q).2.2.1

@[simp] theorem getQueue_setQueue (e : Eng) (b b' : Bool) (q : List Msg) :
    getQueue (setQueue e b q) b' = if b' = b then q else getQueue e b' := by
  cases b <;> cases b' <;> simp [getQueue, setQueue]

@[simp] theorem getQueue_appendLog (e : Eng) (L : List Ev) (b : Bool) :
    getQueue (appendLog e L) b = getQueue e b := by
  cases b <;> rfl

theorem setQueue_getQueue (e : Eng) (b : Bool) : setQueue e b (getQueue e b) = e := by
  cases b <;> simp [setQueue, getQueue]

theorem appendCur_nil (e : Eng) : appendCur e [] = e := by
  unfold appendCur
  rw [List.append_nil]
  exact setQueue_getQueue e e.currentQueue

theorem appendCur_appendCur (e : Eng) (ms ms' : List Msg) :
    appendCur (appendCur e ms) ms' = appendCur e (ms ++ ms') := by
  unfold appendCur
  cases hc : e.currentQueue <;> simp [setQueue, getQueue, hc]

theorem appendLog_appendLog (e : Eng) (L L' : List Ev) :
    appendLog (appendLog e L) L' = appendLog e (L ++ L') := by
  simp [appendLog]

theorem appendCur_appendLog (e : Eng) (L : List Ev) (ms : List Msg) :
    appendCur (appendLog e L) ms = appendLog (appendCur e ms) L := by
  unfold appendCur
  cases hc : e.currentQueue <;> simp [setQueue, getQueue, appendLog, hc]

@[simp] theorem eff_listenerMap (e : Eng) (L : List Ev) (ms : List Msg) :
    (eff e L ms).listenerMap = e.listenerMap := by
  simp [eff, appendCur, appendLog]

@[simp] theorem eff_wildcard (e : Eng) (L : List Ev) (ms : List Msg) :
    (eff e L ms).wildcard = e.wildcard := by
  simp [eff, appendCur, appendLog]

@[simp] theorem eff_currentQueue (e : Eng) (L : List Ev) (ms : List Msg) :
    (eff e L ms).currentQueue = e.currentQueue := by
  simp [eff, appendCur, appendLog]

@[simp] theorem eff_log (e : Eng) (L : List Ev) (ms : List Msg) :
    (eff e L ms).log = e.log ++ L := by
  simp [eff, appendCur, appendLog]

theorem eff_eff (e : Eng) (L L' : List Ev) (ms ms' : List Msg) :
    eff (eff e L ms) L' ms' = eff e (L ++ L') (ms ++ ms') := by
  unfold eff
  rw [← appendCur_appendLog, appendCur_appendCur, appendLog_appendLog]

theorem eff_nil (e : Eng) : eff e [] [] = e := by
  unfold eff
  rw [appendCur_nil]
  simp [appendLog]

theorem appendLog_as_eff (e : Eng) (L : List Ev) : appendLog e L = eff e L [] := by
  unfold eff
  rw [appendCur_nil]

@[simp] theorem appendLog_listenerMap (e : Eng) (L : List Ev) :
    (appendLog e L).listenerMap = e.listenerMap := rfl

@[simp] theorem appendLog_wildcard (e : Eng) (L : List Ev) :
    (appendLog e L).wildcard = e.wildcard := rfl

@[simp] theorem appendLog_currentQueue (e : Eng) (L : List Ev) :
    (appendLog e L).currentQueue = e.currentQueue := rfl

@[simp] theorem appendCur_listenerMap (e : Eng) (ms : List Msg) :
    (appendCur e ms).listenerMap = e.listenerMap := by
  simp [appendCur]

@[simp] theorem appendCur_wildcard (e : Eng) (ms : List Msg) :
    (appendCur e ms).wildcard = e.wildcard := by
  simp [appendCur]

@[simp] theorem appendCur_currentQueue (e : Eng) (ms : List Msg) :
    (appendCur e ms).currentQueue = e.currentQueue := by
  simp [appendCur]

@[simp] theorem appendCur_log (e : Eng) (ms : List Msg) :
    (appendCur e ms).log = e.log := by
  simp [appendCur]

/-!
## Refinement: the engine's bus operations against the spec-side descriptions
-/

theorem queueMessage_snd (e : Eng) (m : Msg) :
    (Eng.queueMessage e m).2 = if eligible e.listenerMap m then appendCur e [m] else e := by
  unfold Eng.queueMessage eligible
  cases h : lookupLL e.listenerMap m.type with
  | none => simp
  | some ls => cases ls <;> simp

theorem foldl_queueMessage (qs : List Msg) (e : Eng) :
    qs.foldl (fun acc q => (Eng.queueMessage acc q).2) e =
      appendCur e (qs.filter (fun q => eligible e.listenerMap q)) := by
  induction qs generalizing e with
  | nil => simp [appendCur_nil]
  | cons q rest ih =>
      simp only [List.foldl_cons, List.filter_cons]
      rw [queueMessage_snd]
      by_cases h : eligible e.listenerMap q
      · rw [if_pos h, ih, if_pos h]
        have hmap : (appendCur e [q]).listenerMap = e.listenerMap := by
          simp [appendCur]
        rw [hmap, appendCur_appendCur]
        rfl
      · rw [if_neg h, ih, if_neg h]

theorem runListeners_eq (b : Behavior) (m : Msg) (ls : List Nat) :
    ∀ (st : MsgStatus) (e : Eng),
      runListeners b m ls st e =
        (if consumesAny b ls m then .CONSUMED else st,
         eff e (ls.map (fun l => Ev.onMessage l m))
               (ls.flatMap (fun l => ((b l m).2).filter (fun q => eligible e.listenerMap q)))) := by
  induction ls with
  | nil =>
      intro st e
      simp [runListeners, consumesAny, eff_nil]
  | cons l rest ih =>
      intro st e
      simp only [runListeners]
      rw [foldl_queueMessage, ih]
      simp only [appendCur_listenerMap, appendLog_listenerMap]
      have heff : appendCur (appendLog e [Ev.onMessage l m])
          (((b l m).2).filter (fun q => eligible e.listenerMap q)) =
          eff e [Ev.onMessage l m] (((b l m).2).filter (fun q => eligible e.listenerMap q)) := rfl
      rw [heff, eff_eff]
      rw [Prod.mk.injEq]
      constructor
      · by_cases h1 : (b l m).1 <;>
          by_cases h2 : consumesAny b rest m <;>
            simp [consumesAny, h1, h2]
      · simp [consumesAny]

theorem triggerMessage_eq (b : Behavior) (e : Eng) (m : Msg) :
    Eng.triggerMessage b e m =
      (trigStatus b e.listenerMap e.wildcard m,
       eff e (triggerLog e.listenerMap e.wildcard m) (enqOf b e.listenerMap e.wildcard m)) := by
  cases h : lookupLL e.listenerMap m.type with
  | none =>
      simp only [Eng.triggerMessage, appendLog_listenerMap, appendLog_wildcard, h]
      rw [runListeners_eq, appendLog_listenerMap, appendLog_as_eff, eff_eff]
      simp [trigStatus, triggerLog, enqOf, typeListeners, h]
  | some ls =>
      simp only [Eng.triggerMessage, appendLog_listenerMap, h]
      rw [runListeners_eq b m ls]
      simp only [eff_listenerMap, eff_wildcard, appendLog_listenerMap, appendLog_wildcard]
      rw [runListeners_eq b m e.wildcard]
      simp only [eff_listenerMap, eff_wildcard, appendLog_listenerMap, appendLog_wildcard]
      rw [appendLog_as_eff, eff_eff, eff_eff]
      rw [Prod.mk.injEq]
      constructor
      · simp only [trigStatus, h, consumesAny_append]
        by_cases h1 : consumesAny b ls m <;>
          by_cases h2 : consumesAny b e.wildcard m <;>
            simp [h1, h2]
      · simp [triggerLog, enqOf, typeListeners, h, List.flatMap_append]

theorem drain_eq (b : Behavior) (ms : List Msg) :
    ∀ e : Eng,
      drain b ms e =
        eff e (ms.flatMap (fun m => triggerLog e.listenerMap e.wildcard m))
              (drainSpec b e.listenerMap e.wildcard ms) := by
  induction ms with
  | nil =>
      intro e
      simp [drain, drainSpec, eff_nil]
  | cons m rest ih =>
      intro e
      simp only [drain]
      rw [triggerMessage_eq]
      simp only []
      by_cases hst : trigStatus b e.listenerMap e.wildcard m = .NOTCONSUMED
      · rw [if_pos hst]
        have hstep : appendCur
            (eff e (triggerLog e.listenerMap e.wildcard m) (enqOf b e.listenerMap e.wildcard m)) [m] =
            eff e (triggerLog e.listenerMap e.wildcard m) (enqOf b e.listenerMap e.wildcard m ++ [m]) := by
          unfold eff
          rw [appendCur_appendCur]
        rw [hstep, ih]
        simp only [eff_listenerMap, eff_wildcard]
        rw [eff_eff]
        simp [drainSpec, hst]
      · rw [if_neg hst, ih]
        simp only [eff_listenerMap, eff_wildcard]
        rw [eff_eff]
        simp [drainSpec, hst]

theorem dispatch_closed (b : Behavior) (e : Eng) :
    Eng.dispatchMessages b e = dispatchResult b e := by
  unfold Eng.dispatchMessages
  rw [drain_eq]
  cases hc : e.currentQueue <;>
    simp [dispatchResult, setQueue, getQueue, eff, appendCur, appendLog, hc]

theorem enqOf_noqueue {b : Behavior} (h : ∀ l m', (b l m').2 = [])
    (map : List (Nat × List Nat)) (wc : List Nat) (m : Msg) :
    enqOf b map wc m = [] := by
  unfold enqOf
  induction (typeListeners map m ++ wc) with
  | nil => rfl
  | cons l rest ih => simp [List.flatMap_cons, h, ih]

theorem drainSpec_noqueue {b : Behavior} (h : ∀ l m', (b l m').2 = [])
    (map : List (Nat × List Nat)) (wc : List Nat) (ms : List Msg) :
    drainSpec b map wc ms =
      ms.filter (fun m => decide (trigStatus b map wc m = .NOTCONSUMED)) := by
  induction ms with
  | nil => rfl
  | cons m rest ih =>
      by_cases hst : trigStatus b map wc m = .NOTCONSUMED <;>
        simp [drainSpec, enqOf_noqueue h, hst, ih, List.filter_cons]

/-- Claim C2: one call to `dispatchMessages` flips the current-buffer flag;
the buffer that was current is drained and left empty; the messages passed to
`triggerMessage` are exactly that buffer's content, front-to-back — so a
message a listener enqueues during the drain (which lands, via
`queueMessage`, in the newly current buffer) is never triggered in the same
call; the newly current buffer holds only what the drain produced —
listener-queued messages and the `NOTCONSUMED` re-appends, in processing
order — and when listeners queue nothing it is exactly the `NOTCONSUMED`
subsequence of the old buffer, so an unconsumed message is presented once
per subsequent dispatch call. -/

theorem C2_dispatchMessages (b : Behavior) (e : Eng) :
    (Eng.dispatchMessages b e).currentQueue = !e.currentQueue ∧
    getQueue (Eng.dispatchMessages b e) e.currentQueue = [] ∧
    (Eng.dispatchMessages b e).log =
      e.log ++ (getQueue e e.currentQueue).flatMap
        (fun m => triggerLog e.listenerMap e.wildcard m) ∧
    getQueue (Eng.dispatchMessages b e) (!e.currentQueue) =
      drainSpec b e.listenerMap e.wildcard (getQueue e e.currentQueue) ∧
    ((∀ l m', (b l m').2 = []) →
      getQueue (Eng.dispatchMessages b e) (!e.currentQueue) =
        (getQueue e e.currentQueue).filter
          (fun m => decide (trigStatus b e.listenerMap e.wildcard m = .NOTCONSUMED))) := by
  rw [dispatch_closed]
  cases hc : e.currentQueue <;>
    refine ⟨by simp [dispatchResult, hc], ?_, ?_, ?_, ?_⟩ <;>
      simp [dispatchResult, getQueue, hc, drainSpec_noqueue]
  case _ => intro h; simp [drainSpec_noqueue h]
  case _ => intro h; simp [drainSpec_noqueue h]

/-- Witness for `C2_dispatchMessages`: on an engine holding one queued
message of an unregistered type, the no-enqueue clause applies and the new
buffer is empty (the message is dropped with status `NOLISTENER`). -/

theorem C2_witness :
    getQueue (Eng.dispatchMessages bSilent { baseEng with q0 := [{ type := 3, stamp := 0 }] }) true = [] := by
  have h := (C2_dispatchMessages bSilent { baseEng with q0 := [{ type := 3, stamp := 0 }] }).2.2.2.2
    (fun _ _ => rfl)
  simpa using h

/-- Claim C4 (counterexample): a message whose type has no type-specific
listener list, dispatched while a consuming wildcard listener is registered,
is classified `CONSUMED` — the wildcard loop overwrites the `NOLISTENER`
status — whereas the claim demands `NOLISTENER` regardless of what the
wildcard listeners do. -/

theorem C4_counterexample :
    (Eng.triggerMessage bConsume { baseEng with wildcard := [5] } { type := 0, stamp := 0 }).1 =
      MsgStatus.CONSUMED ∧
    MsgStatus.CONSUMED ≠ MsgStatus.NOLISTENER := by
  decide

/-- Claim C4 (amended): `triggerMessage` returns `CONSUMED` as soon as any
invoked listener — type-specific or wildcard — reports consumption, even
when no type-specific list exists; `NOLISTENER` only when no type-specific
list exists *and* no wildcard consumed; and `NOTCONSUMED` otherwise (a
type-specific list exists, possibly empty, and nothing consumed). -/

theorem C4_trigger_amended (b : Behavior) (e : Eng) (m : Msg) :
    (Eng.triggerMessage b e m).1 = trigStatus b e.listenerMap e.wildcard m := by
  rw [triggerMessage_eq]

/-- Claim C7: `queueMessage` returns `NOLISTENER` and leaves the engine —
in particular both message buffers — completely unchanged when the message's
type has no type-specific listener list or an empty one (wildcard interest
plays no part); otherwise it appends the message to the back of the
currently-accepting buffer, leaves the other buffer and all registries
unchanged, and returns `SUCCESS`. -/

theorem C7_queueMessage (e : Eng) (m : Msg) :
    (lookupLL e.listenerMap m.type = none → Eng.queueMessage e m = (.NOLISTENER, e)) ∧
    (lookupLL e.listenerMap m.type = some [] → Eng.queueMessage e m = (.NOLISTENER, e)) ∧
    (∀ l ls, lookupLL e.listenerMap m.type = some (l :: ls) →
      (Eng.queueMessage e m).1 = .SUCCESS ∧
      getQueue (Eng.queueMessage e m).2 e.currentQueue = getQueue e e.currentQueue ++ [m] ∧
      getQueue (Eng.queueMessage e m).2 (!e.currentQueue) = getQueue e (!e.currentQueue) ∧
      (Eng.queueMessage e m).2.currentQueue = e.currentQueue ∧
      (Eng.queueMessage e m).2.listenerMap = e.listenerMap ∧
      (Eng.queueMessage e m).2.wildcard = e.wildcard ∧
      (Eng.queueMessage e m).2.log = e.log ∧
      (Eng.queueMessage e m).2.stateStack = e.stateStack) := by
  refine ⟨?_, ?_, ?_⟩
  · intro h; unfold Eng.queueMessage; rw [h]
  · intro h; unfold Eng.queueMessage; rw [h]
  · intro l ls h
    unfold Eng.queueMessage
    rw [h]
    refine ⟨rfl, ?_, ?_, by simp, by simp, by simp, by simp, ?_⟩
    · unfold appendCur
      simp
    · unfold appendCur
      cases hc : e.currentQueue <;> simp [hc]
    · simp [appendCur]

/-- Witness for `C7_queueMessage`: with listener 1 registered for type 3,
queueing a type-3 message succeeds and lands at the back of the accepting
buffer. -/

theorem C7_witness :
    (Eng.queueMessage { baseEng with listenerMap := [(3, [1])] } { type := 3, stamp := 0 }).1 =
      MsgStatus.SUCCESS := by
  exact ((C7_queueMessage { baseEng with listenerMap := [(3, [1])] } { type := 3, stamp := 0 }).2.2
    1 [] rfl).1

theorem lookupLL_append_self {map : List (Nat × List Nat)} {t : Nat}
    (h : lookupLL map t = none) (v : List Nat) :
    lookupLL (map ++ [(t, v)]) t = some v := by
  induction map with
  | nil => simp [lookupLL]
  | cons kv rest ih =>
      obtain ⟨k, w⟩ := kv
      by_cases hk : k = t
      · simp [lookupLL, hk] at h
      · simp only [lookupLL, List.cons_append, if_neg hk] at h ⊢
        exact ih h

theorem lookupLL_append_other {t t' : Nat} (h : t' ≠ t)
    (map : List (Nat × List Nat)) (v : List Nat) :
    lookupLL (map ++ [(t, v)]) t' = lookupLL map t' := by
  induction map with
  | nil =>
      simp only [List.nil_append, lookupLL, if_neg (Ne.symm h)]
  | cons kv rest ih =>
      obtain ⟨k, w⟩ := kv
      by_cases hk : k = t'
      · simp [lookupLL, List.cons_append, hk]
      · simp only [lookupLL, List.cons_append, if_neg hk]
        exact ih

theorem lookupLL_setLL_self {map : List (Nat × List Nat)} {t : Nat} {ls : List Nat}
    (h : lookupLL map t = some ls) (v : List Nat) :
    lookupLL (setLL map t v) t = some v := by
  induction map with
  | nil => simp [lookupLL] at h
  | cons kv rest ih =>
      obtain ⟨k, w⟩ := kv
      by_cases hk : k = t
      · simp [lookupLL, setLL, hk]
      · simp only [lookupLL, if_neg hk] at h
        simp only [setLL, if_neg hk, lookupLL]
        exact ih h

theorem lookupLL_setLL_other {t t' : Nat} (h : t' ≠ t)
    (map : List (Nat × List Nat)) (v : List Nat) :
    lookupLL (setLL map t v) t' = lookupLL map t' := by
  induction map with
  | nil => simp [setLL]
  | cons kv rest ih =>
      obtain ⟨k, w⟩ := kv
      by_cases hk : k = t
      · subst hk
        simp [setLL, lookupLL, if_neg (Ne.symm h)]
      · by_cases hk' : k = t'
        · subst hk'
          simp [setLL, lookupLL, if_neg hk]
        · simp only [setLL, if_neg hk, lookupLL, if_neg hk']
          exact ih

theorem addListener_mem {e : Eng} {l T : Nat} {ls : List Nat}
    (h : lookupLL e.listenerMap T = some ls) (hl : l ∈ ls) :
    Eng.addListener e l T = (false, e) := by
  simp [Eng.addListener, h, hl]

/-- Claim C9: `addListener(L, T)` with `L` already in `T`'s list returns
`false` and mutates nothing (the engine is returned untouched); with `L` not
yet registered it returns `true` and appends `L` to the end of `T`'s list,
creating the entry when absent and disturbing no other type's list; nothing
but the listener map is ever modified.  Hence two successive
`addListener(L, T)` calls, starting from a registry with no `L` under `T`,
succeed then fail, leaving exactly one entry for `L` in `T`'s list. -/

theorem C9_addListener (l T : Nat) (e : Eng) :
    ((Eng.addListener e l T).2 = { e with listenerMap := (Eng.addListener e l T).2.listenerMap }) ∧
    (∀ ls, lookupLL e.listenerMap T = some ls → l ∈ ls →
      Eng.addListener e l T = (false, e)) ∧
    (lookupLL e.listenerMap T = none →
      (Eng.addListener e l T).1 = true ∧
      lookupLL (Eng.addListener e l T).2.listenerMap T = some [l] ∧
      (∀ T', T' ≠ T →
        lookupLL (Eng.addListener e l T).2.listenerMap T' = lookupLL e.listenerMap T')) ∧
    (∀ ls, lookupLL e.listenerMap T = some ls → l ∉ ls →
      (Eng.addListener e l T).1 = true ∧
      lookupLL (Eng.addListener e l T).2.listenerMap T = some (ls ++ [l]) ∧
      (∀ T', T' ≠ T →
        lookupLL (Eng.addListener e l T).2.listenerMap T' = lookupLL e.listenerMap T')) ∧
    (((lookupLL e.listenerMap T).getD []).count l = 0 →
      (Eng.addListener e l T).1 = true ∧
      Eng.addListener (Eng.addListener e l T).2 l T = (false, (Eng.addListener e l T).2) ∧
      ((lookupLL (Eng.addListener e l T).2.listenerMap T).getD []).count l = 1) := by
  refine ⟨?_, ?_, ?_, ?_, ?_⟩
  · cases h : lookupLL e.listenerMap T with
    | none => simp [Eng.addListener, h]
    | some ls =>
        by_cases hl : l ∈ ls <;> simp [Eng.addListener, h, hl]
  · intro ls h hl
    exact addListener_mem h hl
  · intro h
    refine ⟨by simp [Eng.addListener, h], ?_, ?_⟩
    · simp only [Eng.addListener, h]
      exact lookupLL_append_self h [l]
    · intro T' hT'
      simp only [Eng.addListener, h]
      exact lookupLL_append_other hT' _ _
  · intro ls h hl
    refine ⟨by simp [Eng.addListener, h, hl], ?_, ?_⟩
    · simp only [Eng.addListener, h, if_neg hl]
      exact lookupLL_setLL_self h _
    · intro T' hT'
      simp only [Eng.addListener, h, if_neg hl]
      exact lookupLL_setLL_other hT' _ _
  · intro hcount
    cases h : lookupLL e.listenerMap T with
    | none =>
        have hmain : lookupLL (Eng.addListener e l T).2.listenerMap T = some [l] := by
          simp only [Eng.addListener, h]
          exact lookupLL_append_self h [l]
        refine ⟨by simp [Eng.addListener, h], ?_, ?_⟩
        · exact addListener_mem hmain (by simp)
        · rw [hmain]
          simp
    | some ls =>
        rw [h] at hcount
        have h0 : ls.count l = 0 := by simpa using hcount
        have hl : l ∉ ls := by
          exact List.count_eq_zero.mp h0
        have hmain : lookupLL (Eng.addListener e l T).2.listenerMap T = some (ls ++ [l]) := by
          simp only [Eng.addListener, h, if_neg hl]
          exact lookupLL_setLL_self h _
        refine ⟨by simp [Eng.addListener, h, hl], ?_, ?_⟩
        · exact addListener_mem hmain (by simp)
        · rw [hmain]
          simp [List.count_append, h0]

/-- Witness for `C9_addListener`: registering listener 1 for type 3 twice on
an empty registry leaves exactly one entry for it. -/

theorem C9_witness :
    ((lookupLL (Eng.addListener baseEng 1 3).2.listenerMap 3).getD []).count 1 = 1 := by
  exact ((C9_addListener 1 3 baseEng).2.2.2.2 (by decide)).2.2

@[simp] theorem appendLog_timer (e : Eng) (L : List Ev) :
    (appendLog e L).timer = e.timer := rfl

@[simp] theorem appendLog_currentTimestamp (e : Eng) (L : List Ev) :
    (appendLog e L).currentTimestamp = e.currentTimestamp := rfl

@[simp] theorem appendLog_deltaT (e : Eng) (L : List Ev) :
    (appendLog e L).deltaT = e.deltaT := rfl

@[simp] theorem appendLog_paused (e : Eng) (L : List Ev) :
    (appendLog e L).paused = e.paused := rfl

@[simp] theorem appendLog_stateStack (e : Eng) (L : List Ev) :
    (appendLog e L).stateStack = e.stateStack := rfl

@[simp] theorem appendLog_queuedState (e : Eng) (L : List Ev) :
    (appendLog e L).queuedState = e.queuedState := rfl

@[simp] theorem appendLog_tickStatic (e : Eng) (L : List Ev) :
    (appendLog e L).tickStatic = e.tickStatic := rfl

theorem dispatchResult_proj (b : Behavior) (e : Eng) :
    (dispatchResult b e).timer = e.timer ∧
    (dispatchResult b e).currentTimestamp = e.currentTimestamp ∧
    (dispatchResult b e).deltaT = e.deltaT ∧
    (dispatchResult b e).paused = e.paused ∧
    (dispatchResult b e).stateStack = e.stateStack ∧
    (dispatchResult b e).queuedState = e.queuedState ∧
    (dispatchResult b e).tickStatic = e.tickStatic := by
  simp [dispatchResult]

@[simp] theorem dispatchResult_timer (b : Behavior) (e : Eng) :
    (dispatchResult b e).timer = e.timer := (dispatchResult_proj b e).1

@[simp] theorem dispatchResult_currentTimestamp (b : Behavior) (e : Eng) :
    (dispatchResult b e).currentTimestamp = e.currentTimestamp := (dispatchResult_proj b e).2.1

@[simp] theorem dispatchResult_deltaT (b : Behavior) (e : Eng) :
    (dispatchResult b e).deltaT = e.deltaT := (dispatchResult_proj b e).2.2.1

@[simp] theorem dispatchResult_paused (b : Behavior) (e : Eng) :
    (dispatchResult b e).paused = e.paused := (dispatchResult_proj b e).2.2.2.1

@[simp] theorem dispatchResult_stateStack (b : Behavior) (e : Eng) :
    (dispatchResult b e).stateStack = e.stateStack := (dispatchResult_proj b e).2.2.2.2.1

@[simp] theorem dispatchResult_queuedState (b : Behavior) (e : Eng) :
    (dispatchResult b e).queuedState = e.queuedState := (dispatchResult_proj b e).2.2.2.2.2.1

@[simp] theorem dispatchResult_tickStatic (b : Behavior) (e : Eng) :
    (dispatchResult b e).tickStatic = e.tickStatic := (dispatchResult_proj b e).2.2.2.2.2.2

theorem pushState_proj (e : Eng) (s : Nat) :
    (Eng.pushState e s).timer = e.timer ∧
    (Eng.pushState e s).currentTimestamp = e.currentTimestamp ∧
    (Eng.pushState e s).deltaT = e.deltaT ∧
    (Eng.pushState e s).paused = e.paused ∧
    (Eng.pushState e s).queuedState = e.queuedState ∧
    (Eng.pushState e s).tickStatic = e.tickStatic ∧
    (Eng.pushState e s).stateStack = s :: e.stateStack := by
  cases h : e.stateStack <;> simp [Eng.pushState, appendLog, h]

@[simp] theorem pushState_timer (e : Eng) (s : Nat) :
    (Eng.pushState e s).timer = e.timer := (pushState_proj e s).1

@[simp] theorem pushState_currentTimestamp (e : Eng) (s : Nat) :
    (Eng.pushState e s).currentTimestamp = e.currentTimestamp := (pushState_proj e s).2.1

@[simp] theorem pushState_deltaT (e : Eng) (s : Nat) :
    (Eng.pushState e s).deltaT = e.deltaT := (pushState_proj e s).2.2.1

@[simp] theorem pushState_paused (e : Eng) (s : Nat) :
    (Eng.pushState e s).paused = e.paused := (pushState_proj e s).2.2.2.1

@[simp] theorem pushState_queuedState (e : Eng) (s : Nat) :
    (Eng.pushState e s).queuedState = e.queuedState := (pushState_proj e s).2.2.2.2.1

@[simp] theorem pushState_tickStatic (e : Eng) (s : Nat) :
    (Eng.pushState e s).tickStatic = e.tickStatic := (pushState_proj e s).2.2.2.2.2.1

@[simp] theorem pushState_stateStack (e : Eng) (s : Nat) :
    (Eng.pushState e s).stateStack = s :: e.stateStack := (pushState_proj e s).2.2.2.2.2.2

/-- `tick` neither reads nor writes `paused_`: its result on an engine with
the flag forced to `v` is its result on the original engine with the flag
forced to `v`. -/

theorem tick_pausedSet (b : Behavior) (now : Int) (e : Eng) (v : Bool) :
    Eng.tick b now { e with paused := v } =
      (Eng.tick b now e).map (fun r => { r with paused := v }) := by
  obtain ⟨t, c, d, p, ss, qs, lm, q0, q1, cq, wc, ts, lg⟩ := e
  simp only [Eng.tick, dispatch_closed, dispatchResult, Eng.pushState, appendLog]
  cases qs <;> cases ts <;> cases ss <;> rfl

/-- The timer-derived fields of a completed `tick` come from the timer alone:
`r.timer` is the timer after `tick` and the `getTime` resample, `r.deltaT`
its delta, `r.currentTimestamp` the `getTime` value. -/

theorem tick_fields (b : Behavior) (now : Int) (e : Eng) (r : Eng)
    (h : Eng.tick b now e = some r) :
    r.timer = ((e.timer.tick now).getTime now).2 ∧
    r.deltaT = ((e.timer.tick now).getTime now).2.delta ∧
    r.currentTimestamp = ((e.timer.tick now).getTime now).1 := by
  cases hq : e.queuedState with
  | none =>
      cases hts : e.tickStatic with
      | none =>
          cases hss : e.stateStack with
          | nil =>
              exfalso
              simp [Eng.tick, dispatch_closed, hq, hts, hss] at h
          | cons f rest =>
              simp only [Eng.tick, dispatch_closed, dispatchResult_queuedState,
                dispatchResult_tickStatic, dispatchResult_stateStack, hq, hts, hss,
                Option.some.injEq] at h
              subst h
              refine ⟨?_, ?_, ?_⟩ <;> simp [TimerState.getDeltaTime]
      | some cst =>
          simp only [Eng.tick, dispatch_closed, dispatchResult_queuedState,
            dispatchResult_tickStatic, hq, hts, Option.some.injEq] at h
          subst h
          refine ⟨?_, ?_, ?_⟩ <;> simp [TimerState.getDeltaTime]
  | some s =>
      cases hts : e.tickStatic with
      | none =>
          simp only [Eng.tick, dispatch_closed, dispatchResult_queuedState,
            dispatchResult_tickStatic, pushState_tickStatic, pushState_stateStack,
            hq, hts, Option.some.injEq] at h
          subst h
          refine ⟨?_, ?_, ?_⟩ <;> simp [TimerState.getDeltaTime]
      | some cst =>
          simp only [Eng.tick, dispatch_closed, dispatchResult_queuedState,
            dispatchResult_tickStatic, pushState_tickStatic, hq, hts,
            Option.some.injEq] at h
          subst h
          refine ⟨?_, ?_, ?_⟩ <;> simp [TimerState.getDeltaTime]

/-- Claim C10: `Engine::pause`/`Engine::unPause` change nothing but the
engine's `paused_` flag and the timer; `Engine::tick` never consults the
engine's `paused_` flag, so a paused engine still dispatches messages, still
applies a queued state transition, and still performs the update and render
calls exactly as an unpaused one would; and when the *timer* is paused a
completed `tick` leaves the timer untouched, reports the last pre-pause
delta through `deltaT`, and freezes the timestamp at
`pause_time_ - base_time_`, so `getTimeStamp()` stops increasing. -/

theorem C10_pause_independence (b : Behavior) (now : Int) (e : Eng) :
    (Eng.pause now e = { e with paused := true, timer := e.timer.pause now }) ∧
    (Eng.unPause now e = { e with paused := false, timer := e.timer.unpause now }) ∧
    (∀ v : Bool, Eng.tick b now { e with paused := v } =
      (Eng.tick b now e).map (fun r => { r with paused := v })) ∧
    (e.timer.paused = true → ∀ r : Eng, Eng.tick b now e = some r →
      r.timer = e.timer ∧ r.deltaT = e.timer.delta ∧
      r.currentTimestamp = e.timer.pauseTime - e.timer.base) := by
  refine ⟨rfl, rfl, fun v => tick_pausedSet b now e v, ?_⟩
  intro hp r hr
  have hfix : (e.timer.tick now).getTime now = (e.timer.pauseTime - e.timer.base, e.timer) := by
    simp [TimerState.tick, TimerState.getTime, hp]
  have h := tick_fields b now e r hr
  rw [hfix] at h
  exact h

/-- Witness for `C10_pause_independence`: on a concretely paused engine the
completed tick keeps the timer frozen and reports the pre-pause delta 9. -/

theorem C10_witness :
    ((Eng.tick bSilent 10
        { baseEng with
          timer := { zTimer with paused := true, pauseTime := 3, base := 1, delta := 9 },
          stateStack := [4], tickStatic := some 4 }).getD baseEng).deltaT = 9 := by
  have h := (C10_pause_independence bSilent 10
      { baseEng with
        timer := { zTimer with paused := true, pauseTime := 3, base := 1, delta := 9 },
        stateStack := [4], tickStatic := some 4 }).2.2.2 rfl
      ((Eng.tick bSilent 10
        { baseEng with
          timer := { zTimer with paused := true, pauseTime := 3, base := 1, delta := 9 },
          stateStack := [4], tickStatic := some 4 }).getD baseEng)
      (by decide)
  simpa using h.2.1

end EngineModel
